import Mathlib

/-!
Verification of the nested-transaction core of psycopg
(`psycopg/psycopg/transaction.py`, with the legacy variant
`psycopg3/psycopg3/transaction.py` for its constructor).

The embedding is shallow: the connection state visible to the transaction
code is its savepoint-name stack (`Connection._savepoints`, a Python list
used with `append` and `pop`, so the top is the last element); the
generators `_enter_gen`, `_exit_gen`, `_commit_gen`, `_rollback_gen` and
the helpers `_push_savepoint` / `_pop_savepoint` become pure functions
returning the updated state together with either the raised exception or
the emitted command batch.
-/

namespace PsycopgTx

/-! ## Decimal rendering

Embedding of Python f-string integer formatting (`f"_pg3_{n}"`):
standard decimal digits. -/

/-- The character for one decimal digit value. -/
def decDigit (d : Nat) : Char := Char.ofNat (48 + d)

/-- Fuel-driven helper computing the decimal digit values of a number,
most significant first; the fuel makes the recursion structural so that
the kernel can evaluate it. -/
def decDigitsAux : Nat → Nat → List Nat
  | 0, _ => []
  | fuel + 1, n => if n = 0 then [] else decDigitsAux fuel (n / 10) ++ [n % 10]

/-- Decimal digit values of a positive number, most significant first
(empty for zero). -/
def decDigits (n : Nat) : List Nat := decDigitsAux n n

/-- Decimal rendering of a natural number, as Python `str` produces it. -/
def natToDec (n : Nat) : String :=
  if n = 0 then "0" else String.mk ((decDigits n).map decDigit)

/-! ## The data model -/

/-- `pq.TransactionStatus`; the transaction code only distinguishes
`IDLE` from the rest. -/
inductive TransactionStatus
  | idle
  | active
  | intrans
  | inerror
  | unknown
deriving DecidableEq, Repr

/-- The connection state the transaction core reads and writes:
`Connection._savepoints`, a list of savepoint names whose last element is
the top of the stack. -/
structure Conn where
  savepoints : List String
deriving DecidableEq, Repr

/-- The `BaseTransaction` instance state (psycopg).  `id` models Python
object identity, used by the `exc_val.transaction is self` test. -/
structure Tx where
  id : Nat
  savepoint_name : String
  force_rollback : Bool
  entered : Bool
  exited : Bool
  outer_transaction : Bool
deriving DecidableEq, Repr

/-- From `BaseTransaction.__init__` (psycopg): store the arguments;
`savepoint_name or ""` defaults a missing or empty name to the empty
string; the lifecycle flags and the outer flag start false. -/
def mkTransaction (id : Nat) (savepoint_name : Option String)
    (force_rollback : Bool) : Tx :=
  { id := id
    savepoint_name := savepoint_name.getD ""
    force_rollback := force_rollback
    entered := false
    exited := false
    outer_transaction := false }

/-! ## The savepoint-stack primitives -/

/-- From `BaseTransaction._push_savepoint`: set the outer flag from the
connection status; an outer entry asserts the stack is empty (`none`
models the assertion failure); an inner entry without a name synthesizes
one from the stack depth; finally append the name to the stack. -/
def pushSavepoint (status : TransactionStatus) (conn : Conn) (tx : Tx) :
    Option (Conn × Tx) :=
  let tx := { tx with outer_transaction := status == TransactionStatus.idle }
  if tx.outer_transaction then
    if conn.savepoints = [] then
      some (⟨conn.savepoints ++ [tx.savepoint_name]⟩, tx)
    else
      none
  else
    let tx :=
      if tx.savepoint_name = "" then
        { tx with
          savepoint_name := "_pg3_" ++ natToDec (conn.savepoints.length + 1) }
      else tx
    some (⟨conn.savepoints ++ [tx.savepoint_name]⟩, tx)

/-- From `BaseTransaction._pop_savepoint`: remove the top element
unconditionally (`none` models the `IndexError` of `pop` on an empty
list); return the shrunk stack and, when the popped element differs from
the scope's own name, the data of the `OutOfOrderTransactionNesting`
error (popped name, own name). -/
def popSavepoint (conn : Conn) (own : String) :
    Option (Conn × Option (String × String)) :=
  match conn.savepoints.getLast? with
  | none => none
  | some sp =>
      some (⟨conn.savepoints.dropLast⟩,
        if sp = own then none else some (sp, own))

/-! ## Command text -/

/-- Modelled from the spec: the SQL identifier quoting collaborator
(`sql.Identifier`, whose module is not among the given sources) produces
an injection-safe quoted form; per the spec scenarios this is the name
wrapped in double quotes, any embedded double quote doubled. -/
def quoteIdent (s : String) : String :=
  String.mk (('"' ::
    (s.data.map fun c => if c = '"' then ['"', '"'] else [c]).flatten) ++ ['"'])

/-- Modelled from the spec: `Connection._get_tx_start_command` (the
connection class is not among the given sources); the spec names the
transaction start command `BEGIN`. -/
def txStartCommand : String := "BEGIN"

/-! ## Exceptions and block outcomes -/

/-- The exceptions the transaction generators can raise.  All but
`outOfOrder` are subclasses of Python `Exception` that the rollback
branch of `_exit_gen` catches. -/
inductive Raised
  | typeError
  | assertionError
  | outOfOrder (popped : String) (own : String)
  | indexError
  | execError (msg : String)
deriving DecidableEq, Repr

/-- The block outcome handed to `_exit_gen` as `exc_val`: nothing, a
`Rollback` control exception carrying an optional target transaction
(modelled by its id), or any other exception. -/
inductive Sig
  | rollbackSig (target : Option Nat)
  | anyException
deriving DecidableEq, Repr

/-- From `_rollback_gen`: `not exc_val.transaction or exc_val.transaction
is self` — swallow the `Rollback` exception when its target is unset or
is this very scope. -/
def swallowDecision (excVal : Option Sig) (txid : Nat) : Bool :=
  match excVal with
  | some (Sig.rollbackSig none) => true
  | some (Sig.rollbackSig (some t)) => t == txid
  | _ => false

/-! ## The generators -/

/-- From `BaseTransaction._enter_gen`: reject re-entry with `TypeError`
before touching anything; otherwise mark entered, push the savepoint, and
emit the begin / savepoint batch.  The result pairs the state after the
call with either the raised exception or the emitted batch. -/
def enterGen (status : TransactionStatus) (conn : Conn) (tx : Tx) :
    (Conn × Tx) × Except Raised String :=
  if tx.entered then
    ((conn, tx), Except.error Raised.typeError)
  else
    let tx := { tx with entered := true }
    match pushSavepoint status conn tx with
    | none =>
        ((conn, { tx with outer_transaction := true }),
          Except.error Raised.assertionError)
    | some (conn, tx) =>
        let commands : List String :=
          (if tx.outer_transaction then [txStartCommand] else []) ++
          (if tx.savepoint_name ≠ "" then
            ["SAVEPOINT " ++ quoteIdent tx.savepoint_name] else [])
        ((conn, tx), Except.ok (String.intercalate "; " commands))

/-- From `BaseTransaction._commit_gen`: pop (raising `IndexError` on an
empty stack before the exited flag is touched), mark exited, raise the
out-of-order error on mismatch; otherwise emit `RELEASE <q>` for an inner
named scope, assert the stack is empty for an outer scope, and append
`COMMIT`.  `execRes` models the outcome of `_exec_command` (`some msg`
means it raised). -/
def commitGen (execRes : Option String) (conn : Conn) (tx : Tx) :
    (Conn × Tx) × Except Raised String :=
  match popSavepoint conn tx.savepoint_name with
  | none => ((conn, tx), Except.error Raised.indexError)
  | some (conn, ex) =>
      let tx := { tx with exited := true }
      match ex with
      | some (popped, own) =>
          ((conn, tx), Except.error (Raised.outOfOrder popped own))
      | none =>
          let commands : List String :=
            if tx.savepoint_name ≠ "" ∧ tx.outer_transaction = false then
              ["RELEASE " ++ quoteIdent tx.savepoint_name]
            else []
          if tx.outer_transaction ∧ conn.savepoints ≠ [] then
            ((conn, tx), Except.error Raised.assertionError)
          else
            let commands :=
              commands ++ (if tx.outer_transaction then ["COMMIT"] else [])
            match execRes with
            | some msg => ((conn, tx), Except.error (Raised.execError msg))
            | none =>
                ((conn, tx), Except.ok (String.intercalate "; " commands))

/-- From `BaseTransaction._rollback_gen`: pop, mark exited, raise the
out-of-order error on mismatch; otherwise emit
`ROLLBACK TO <q>; RELEASE <q>` for an inner named scope, assert the stack
is empty for an outer scope and append `ROLLBACK`; append the
prepared-statement cache maintenance commands (`prepCleared`, `prepCmds`
are modelled from the spec: `invalidatePreparedCache`, the prepared cache
module is not among the given sources); execute, then decide whether to
swallow a `Rollback` exception.  On success the result carries the batch
and the swallow decision. -/
def rollbackGen (execRes : Option String) (prepCleared : Bool)
    (prepCmds : List String) (excVal : Option Sig) (conn : Conn) (tx : Tx) :
    (Conn × Tx) × Except Raised (String × Bool) :=
  match popSavepoint conn tx.savepoint_name with
  | none => ((conn, tx), Except.error Raised.indexError)
  | some (conn, ex) =>
      let tx := { tx with exited := true }
      match ex with
      | some (popped, own) =>
          ((conn, tx), Except.error (Raised.outOfOrder popped own))
      | none =>
          let commands : List String :=
            if tx.savepoint_name ≠ "" ∧ tx.outer_transaction = false then
              ["ROLLBACK TO " ++ quoteIdent tx.savepoint_name ++
                "; RELEASE " ++ quoteIdent tx.savepoint_name]
            else []
          if tx.outer_transaction ∧ conn.savepoints ≠ [] then
            ((conn, tx), Except.error Raised.assertionError)
          else
            let commands :=
              commands ++ (if tx.outer_transaction then ["ROLLBACK"] else [])
            let commands :=
              commands ++ (if prepCleared then prepCmds else [])
            match execRes with
            | some msg => ((conn, tx), Except.error (Raised.execError msg))
            | none =>
                ((conn, tx),
                  Except.ok (String.intercalate "; " commands,
                    swallowDecision excVal tx.id))

/-- From `BaseTransaction._exit_gen`: no exception and no force-rollback
flag means the commit path, whose exceptions propagate; otherwise the
rollback path, whose `OutOfOrderTransactionNesting` is re-raised while
any other exception is logged as a warning and suppressed (exit then
reports not-handled).  On success the result carries the batch whose
execution completed (`none` when a suppressed error interrupted it) and
the handled flag returned to the context-manager protocol. -/
def exitGen (execRes : Option String) (prepCleared : Bool)
    (prepCmds : List String) (excVal : Option Sig) (conn : Conn) (tx : Tx) :
    (Conn × Tx) × Except Raised (Option String × Bool) :=
  if excVal = none ∧ tx.force_rollback = false then
    match commitGen execRes conn tx with
    | (st, Except.error r) => (st, Except.error r)
    | (st, Except.ok batch) => (st, Except.ok (some batch, false))
  else
    match rollbackGen execRes prepCleared prepCmds excVal conn tx with
    | (st, Except.error (Raised.outOfOrder p o)) =>
        (st, Except.error (Raised.outOfOrder p o))
    | (st, Except.error _) => (st, Except.ok (none, false))
    | (st, Except.ok (batch, handled)) =>
        (st, Except.ok (some batch, handled))

/-! ## The legacy psycopg3 constructor -/

/-- The `BaseTransaction` instance state of the legacy psycopg3 variant
(no separate entered/exited flags; a single `yolo` flag). -/
structure Tx3 where
  savepoint_name : String
  force_rollback : Bool
  yolo : Bool
  outer_transaction : Bool
deriving DecidableEq, Repr

/-- From psycopg3 `BaseTransaction.__init__`: already at construction
time it reads the connection's transaction status and stack, determines
the outer flag, asserts the stack empty when outer (`none` models the
assertion failure) and synthesizes the savepoint name
(`savepoint_name or f"s..."`) for an inner scope. -/
def mkTransaction3 (status : TransactionStatus) (savepoints : List String)
    (savepoint_name : Option String) (force_rollback : Bool) : Option Tx3 :=
  if status == TransactionStatus.idle then
    if savepoints = [] then
      some { savepoint_name := savepoint_name.getD ""
             force_rollback := force_rollback
             yolo := true
             outer_transaction := true }
    else
      none
  else
    let name := savepoint_name.getD ""
    some { savepoint_name :=
             if name = "" then "s" ++ natToDec (savepoints.length + 1)
             else name
           force_rollback := force_rollback
           yolo := true
           outer_transaction := false }

/-! ## A world model for well-nested runs

To state the stack-balance invariant the connection is paired with the
server-side fact the code consults through
`pgconn.transaction_status`: whether a transaction is currently open.
`BEGIN` (emitted exactly by an outer entry) opens it, the outer `COMMIT`
or `ROLLBACK` closes it. -/

/-- A connection together with the server-side transaction state. -/
structure World where
  conn : Conn
  inTransaction : Bool
deriving DecidableEq, Repr

/-- The transaction status the code observes for a world. -/
def World.status (w : World) : TransactionStatus :=
  if w.inTransaction then TransactionStatus.intrans else TransactionStatus.idle

/-- A forest of well-nested transaction scopes: either no scope, or a
first scope (with construction arguments, the block outcome its body
produces, and the forest of scopes nested inside it) followed by its
sibling scopes. -/
inductive ScopeF
  | leaf
  | scope (name : Option String) (force : Bool) (sig : Option Sig)
      (children : ScopeF) (rest : ScopeF)

/-- Run a forest of well-nested scopes: each scope is constructed fresh,
entered, its children run inside it, and exited with its block outcome;
`none` models any raised exception (assertion failure, out-of-order
nesting, TypeError). -/
def runF : ScopeF → World → Option World
  | ScopeF.leaf, w => some w
  | ScopeF.scope name force sig children rest, w =>
      match enterGen w.status w.conn (mkTransaction 0 name force) with
      | (_, Except.error _) => none
      | ((conn1, tx1), Except.ok _) =>
          match runF children ⟨conn1, w.inTransaction || tx1.outer_transaction⟩ with
          | none => none
          | some w2 =>
              match exitGen none false [] sig w2.conn tx1 with
              | (_, Except.error _) => none
              | ((conn3, _), Except.ok _) =>
                  runF rest ⟨conn3, w2.inTransaction && !tx1.outer_transaction⟩

/-- The consistency invariant tying the two halves of a world together:
the connection is outside a transaction exactly when its savepoint stack
is empty. -/
def Inv (w : World) : Prop := w.inTransaction = false ↔ w.conn.savepoints = []

/-- The handled flag of an exit result, when the exit returned rather
than raised. -/
def handledOf : Except Raised (Option String × Bool) → Option Bool
  | Except.ok (_, b) => some b
  | Except.error _ => none

/-- The savepoint names synthesized by entering `n` anonymous scopes in a
row on a connection that is inside a transaction. -/
def nestAnonNames (conn : Conn) : Nat → List String
  | 0 => []
  | n + 1 =>
      match enterGen TransactionStatus.intrans conn (mkTransaction 0 none false) with
      | ((conn2, tx2), _) => tx2.savepoint_name :: nestAnonNames conn2 n

/-! ## Auxiliary notions for the decimal-rendering proofs -/

/-- The command list an entry emits (as built inside `_enter_gen`). -/
def enterCommands (tx : Tx) : List String :=
  (if tx.outer_transaction then [txStartCommand] else []) ++
  (if tx.savepoint_name ≠ "" then
    ["SAVEPOINT " ++ quoteIdent tx.savepoint_name] else [])

/-- The command list a commit emits (as built inside `_commit_gen`). -/
def commitCommands (tx : Tx) : List String :=
  (if tx.savepoint_name ≠ "" ∧ tx.outer_transaction = false then
    ["RELEASE " ++ quoteIdent tx.savepoint_name] else []) ++
  (if tx.outer_transaction then ["COMMIT"] else [])

/-- The command list a rollback emits (as built inside `_rollback_gen`). -/
def rollbackCommands (tx : Tx) (prepCleared : Bool) (prepCmds : List String) :
    List String :=
  (if tx.savepoint_name ≠ "" ∧ tx.outer_transaction = false then
    ["ROLLBACK TO " ++ quoteIdent tx.savepoint_name ++
      "; RELEASE " ++ quoteIdent tx.savepoint_name] else []) ++
  (if tx.outer_transaction then ["ROLLBACK"] else []) ++
  (if prepCleared then prepCmds else [])

/-- The number a digit list denotes. -/
def decVal (l : List Nat) : Nat := l.foldl (fun a d => a * 10 + d) 0

/-- The digit list backing `natToDec` uniformly (zero included). -/
def digitsOf (n : Nat) : List Nat := if n = 0 then [0] else decDigits n

end PsycopgTx

namespace PsycopgTx

/-! ## Decimal rendering is injective -/

theorem decDigitsAux_zero (fuel : Nat) : decDigitsAux fuel 0 = [] := by
  cases fuel <;> rfl

theorem decDigitsAux_congr :
    ∀ f1 f2 n : Nat, n ≤ f1 → n ≤ f2 → decDigitsAux f1 n = decDigitsAux f2 n := by
  intro f1
  induction f1 with
  | zero =>
      intro f2 n h1 h2
      have hn : n = 0 := Nat.le_zero.mp h1
      subst hn
      rw [decDigitsAux_zero, decDigitsAux_zero]
  | succ f ih =>
      intro f2 n h1 h2
      match n, f2 with
      | 0, f2 => rw [decDigitsAux_zero, decDigitsAux_zero]
      | n + 1, 0 => exact absurd h2 (by omega)
      | n + 1, f2 + 1 =>
          have hd : (n + 1) / 10 < n + 1 := Nat.div_lt_self (Nat.succ_pos n) (by omega)
          simp only [decDigitsAux, if_neg (Nat.succ_ne_zero n)]
          rw [ih f2 ((n + 1) / 10) (by omega) (by omega)]

theorem decDigits_eq (n : Nat) (h : n ≠ 0) :
    decDigits n = decDigits (n / 10) ++ [n % 10] := by
  obtain ⟨m, rfl⟩ : ∃ m, n = m + 1 := ⟨n - 1, by omega⟩
  have hd : (m + 1) / 10 < m + 1 := Nat.div_lt_self (Nat.succ_pos m) (by omega)
  show decDigitsAux (m + 1) (m + 1) = _
  simp only [decDigitsAux, if_neg (Nat.succ_ne_zero m)]
  rw [decDigitsAux_congr m ((m + 1) / 10) ((m + 1) / 10) (by omega) (Nat.le_refl _)]
  rfl

theorem decVal_append (l : List Nat) (d : Nat) :
    decVal (l ++ [d]) = decVal l * 10 + d := by
  simp [decVal, List.foldl_append]

theorem decVal_decDigits (n : Nat) : decVal (decDigits n) = n := by
  induction n using Nat.strong_induction_on with
  | _ n ih =>
      rcases Nat.eq_zero_or_pos n with h | h
      · subst h; rfl
      · rw [decDigits_eq n (by omega), decVal_append,
          ih (n / 10) (Nat.div_lt_self h (by omega))]
        have := Nat.div_add_mod n 10
        omega

theorem decDigits_lt (n : Nat) : ∀ d ∈ decDigits n, d < 10 := by
  induction n using Nat.strong_induction_on with
  | _ n ih =>
      rcases Nat.eq_zero_or_pos n with h | h
      · subst h; intro d hd; exact absurd hd (by simp [decDigits, decDigitsAux])
      · rw [decDigits_eq n (by omega)]
        intro d hd
        rcases List.mem_append.mp hd with h1 | h2
        · exact ih (n / 10) (Nat.div_lt_self h (by omega)) d h1
        · have : d = n % 10 := by simpa using h2
          subst this
          exact Nat.mod_lt n (by omega)

theorem digitsOf_lt (n : Nat) : ∀ d ∈ digitsOf n, d < 10 := by
  unfold digitsOf
  split
  · intro d hd
    have : d = 0 := by simpa using hd
    omega
  · exact decDigits_lt n

theorem decVal_digitsOf (n : Nat) : decVal (digitsOf n) = n := by
  unfold digitsOf
  split
  · subst ‹n = 0›; rfl
  · exact decVal_decDigits n

theorem natToDec_eq_digitsOf (n : Nat) :
    natToDec n = String.mk ((digitsOf n).map decDigit) := by
  unfold natToDec digitsOf
  split
  · rfl
  · rfl

theorem decDigit_lt_inj :
    ∀ a, a < 10 → ∀ b, b < 10 → decDigit a = decDigit b → a = b := by decide

theorem map_decDigit_inj :
    ∀ {l1 l2 : List Nat}, (∀ d ∈ l1, d < 10) → (∀ d ∈ l2, d < 10) →
      l1.map decDigit = l2.map decDigit → l1 = l2 := by
  intro l1
  induction l1 with
  | nil =>
      intro l2 _ _ h
      cases l2 with
      | nil => rfl
      | cons b t2 => exact absurd h (by simp)
  | cons a t ih =>
      intro l2 h1 h2 h
      cases l2 with
      | nil => exact absurd h (by simp)
      | cons b t2 =>
          simp only [List.map_cons, List.cons.injEq] at h
          obtain ⟨hab, ht⟩ := h
          have hb : a = b :=
            decDigit_lt_inj a (h1 a (by simp)) b (h2 b (by simp)) hab
          subst hb
          rw [ih (fun d hd => h1 d (by simp [hd])) (fun d hd => h2 d (by simp [hd])) ht]

theorem natToDec_injective : Function.Injective natToDec := by
  intro m n h
  rw [natToDec_eq_digitsOf, natToDec_eq_digitsOf] at h
  have hd : (digitsOf m).map decDigit = (digitsOf n).map decDigit :=
    congrArg String.data h
  have hdig := map_decDigit_inj (digitsOf_lt m) (digitsOf_lt n) hd
  have h2 := congrArg decVal hdig
  rwa [decVal_digitsOf, decVal_digitsOf] at h2

theorem string_append_left_cancel {s a b : String} (h : s ++ a = s ++ b) :
    a = b := by
  have hd : (s ++ a).data = (s ++ b).data := congrArg String.data h
  rw [String.data_append, String.data_append] at hd
  exact String.ext (List.append_cancel_left hd)

/-! ## The pop primitive on a non-empty stack -/

theorem popSavepoint_concat (rest : List String) (sp own : String) :
    popSavepoint ⟨rest ++ [sp]⟩ own =
      some (⟨rest⟩, if sp = own then none else some (sp, own)) := by
  unfold popSavepoint
  simp [List.getLast?_concat, List.dropLast_concat]

/-! ## State effects of commit and rollback -/

theorem commitGen_state (execRes : Option String) (rest : List String)
    (sp : String) (tx : Tx) :
    (commitGen execRes ⟨rest ++ [sp]⟩ tx).1 = (⟨rest⟩, { tx with exited := true }) := by
  unfold commitGen
  rw [popSavepoint_concat]
  by_cases hsp : sp = tx.savepoint_name
  · simp only [hsp, eq_self_iff_true, if_true]
    split
    · rfl
    · cases execRes <;> rfl
  · simp only [if_neg hsp]

theorem rollbackGen_state (execRes : Option String) (pc : Bool)
    (pcs : List String) (excVal : Option Sig) (rest : List String)
    (sp : String) (tx : Tx) :
    (rollbackGen execRes pc pcs excVal ⟨rest ++ [sp]⟩ tx).1 =
      (⟨rest⟩, { tx with exited := true }) := by
  unfold rollbackGen
  rw [popSavepoint_concat]
  by_cases hsp : sp = tx.savepoint_name
  · simp only [hsp, eq_self_iff_true, if_true]
    split
    · rfl
    · cases execRes <;> rfl
  · simp only [if_neg hsp]

theorem commitGen_ooo_iff (execRes : Option String) (rest : List String)
    (sp : String) (tx : Tx) :
    (commitGen execRes ⟨rest ++ [sp]⟩ tx).2 =
        Except.error (Raised.outOfOrder sp tx.savepoint_name) ↔
      sp ≠ tx.savepoint_name := by
  unfold commitGen
  rw [popSavepoint_concat]
  by_cases hsp : sp = tx.savepoint_name
  · subst hsp
    constructor
    · intro h
      exfalso
      revert h
      simp only [eq_self_iff_true, if_true]
      split
      · simp
      · cases execRes <;> simp
    · intro h; exact absurd rfl h
  · simp [hsp]

theorem rollbackGen_ooo_iff (execRes : Option String) (pc : Bool)
    (pcs : List String) (excVal : Option Sig) (rest : List String)
    (sp : String) (tx : Tx) :
    (rollbackGen execRes pc pcs excVal ⟨rest ++ [sp]⟩ tx).2 =
        Except.error (Raised.outOfOrder sp tx.savepoint_name) ↔
      sp ≠ tx.savepoint_name := by
  unfold rollbackGen
  rw [popSavepoint_concat]
  by_cases hsp : sp = tx.savepoint_name
  · subst hsp
    constructor
    · intro h
      exfalso
      revert h
      simp only [eq_self_iff_true, if_true]
      split
      · simp
      · cases execRes <;> simp
    · intro h; exact absurd rfl h
  · simp [hsp]

theorem exitGen_state (execRes : Option String) (pc : Bool) (pcs : List String)
    (excVal : Option Sig) (conn : Conn) (tx : Tx) :
    (exitGen execRes pc pcs excVal conn tx).1 =
      if excVal = none ∧ tx.force_rollback = false then
        (commitGen execRes conn tx).1
      else
        (rollbackGen execRes pc pcs excVal conn tx).1 := by
  unfold exitGen
  split
  · rcases h : commitGen execRes conn tx with ⟨st, r⟩
    cases r <;> simp [h]
  · rcases h : rollbackGen execRes pc pcs excVal conn tx with ⟨st, r⟩
    cases r with
    | error err => cases err <;> simp [h]
    | ok val => rcases val with ⟨b, hd⟩; simp [h]

theorem exitGen_ooo_iff (execRes : Option String) (pc : Bool)
    (pcs : List String) (excVal : Option Sig) (rest : List String)
    (sp : String) (tx : Tx) :
    (exitGen execRes pc pcs excVal ⟨rest ++ [sp]⟩ tx).2 =
        Except.error (Raised.outOfOrder sp tx.savepoint_name) ↔
      sp ≠ tx.savepoint_name := by
  unfold exitGen
  split
  · rcases h : commitGen execRes ⟨rest ++ [sp]⟩ tx with ⟨st, r⟩
    have hiff := commitGen_ooo_iff execRes rest sp tx
    rw [h] at hiff
    cases r with
    | error err => simpa using hiff
    | ok b =>
        simp only []
        constructor
        · intro hcon; exact absurd hcon (by simp)
        · intro hne; exact absurd (hiff.mpr hne) (by simp)
  · rcases h : rollbackGen execRes pc pcs excVal ⟨rest ++ [sp]⟩ tx with ⟨st, r⟩
    have hiff := rollbackGen_ooo_iff execRes pc pcs excVal rest sp tx
    rw [h] at hiff
    cases r with
    | error err =>
        cases err with
        | outOfOrder p o => simpa using hiff
        | typeError =>
            simp only []
            exact ⟨fun hcon => absurd hcon (by simp),
              fun hne => absurd (hiff.mpr hne) (by simp)⟩
        | assertionError =>
            exact ⟨fun hcon => absurd hcon (by simp),
              fun hne => absurd (hiff.mpr hne) (by simp)⟩
        | indexError =>
            exact ⟨fun hcon => absurd hcon (by simp),
              fun hne => absurd (hiff.mpr hne) (by simp)⟩
        | execError msg =>
            exact ⟨fun hcon => absurd hcon (by simp),
              fun hne => absurd (hiff.mpr hne) (by simp)⟩
    | ok val =>
        rcases val with ⟨b, hd⟩
        exact ⟨fun hcon => absurd hcon (by simp),
          fun hne => absurd (hiff.mpr hne) (by simp)⟩

/-! ## Successful-path characterizations -/

theorem commitGen_matched (rest : List String) (tx : Tx)
    (houter : tx.outer_transaction = true → rest = []) :
    commitGen none ⟨rest ++ [tx.savepoint_name]⟩ tx =
      ((⟨rest⟩, { tx with exited := true }),
        Except.ok (String.intercalate "; " (commitCommands tx))) := by
  unfold commitGen commitCommands
  rw [popSavepoint_concat]
  simp only [eq_self_iff_true, if_true]
  have hassert : ¬(tx.outer_transaction = true ∧ rest ≠ []) := by
    rintro ⟨h1, h2⟩
    exact h2 (houter h1)
  rw [if_neg hassert]

theorem rollbackGen_matched (pc : Bool) (pcs : List String)
    (excVal : Option Sig) (rest : List String) (tx : Tx)
    (houter : tx.outer_transaction = true → rest = []) :
    rollbackGen none pc pcs excVal ⟨rest ++ [tx.savepoint_name]⟩ tx =
      ((⟨rest⟩, { tx with exited := true }),
        Except.ok (String.intercalate "; " (rollbackCommands tx pc pcs),
          swallowDecision excVal tx.id)) := by
  unfold rollbackGen rollbackCommands
  rw [popSavepoint_concat]
  simp only [eq_self_iff_true, if_true]
  have hassert : ¬(tx.outer_transaction = true ∧ rest ≠ []) := by
    rintro ⟨h1, h2⟩
    exact h2 (houter h1)
  rw [if_neg hassert]

theorem exitGen_matched (pc : Bool) (pcs : List String) (excVal : Option Sig)
    (rest : List String) (tx : Tx)
    (houter : tx.outer_transaction = true → rest = []) :
    exitGen none pc pcs excVal ⟨rest ++ [tx.savepoint_name]⟩ tx =
      ((⟨rest⟩, { tx with exited := true }),
        if excVal = none ∧ tx.force_rollback = false then
          Except.ok (some (String.intercalate "; " (commitCommands tx)), false)
        else
          Except.ok (some (String.intercalate "; " (rollbackCommands tx pc pcs)),
            swallowDecision excVal tx.id)) := by
  unfold exitGen
  by_cases hpath : excVal = none ∧ tx.force_rollback = false
  · rw [if_pos hpath, if_pos hpath, commitGen_matched rest tx houter]
  · rw [if_neg hpath, if_neg hpath, rollbackGen_matched pc pcs excVal rest tx houter]

/-! ## Empty-stack and failing-execute characterizations -/

theorem commitGen_empty (execRes : Option String) (tx : Tx) :
    commitGen execRes ⟨[]⟩ tx = ((⟨[]⟩, tx), Except.error Raised.indexError) := rfl

theorem rollbackGen_empty (execRes : Option String) (pc : Bool)
    (pcs : List String) (excVal : Option Sig) (tx : Tx) :
    rollbackGen execRes pc pcs excVal ⟨[]⟩ tx =
      ((⟨[]⟩, tx), Except.error Raised.indexError) := rfl

theorem rollbackGen_matched_execFail (msg : String) (pc : Bool)
    (pcs : List String) (excVal : Option Sig) (rest : List String) (tx : Tx) :
    (rollbackGen (some msg) pc pcs excVal ⟨rest ++ [tx.savepoint_name]⟩ tx).2 =
        Except.error Raised.assertionError ∨
      (rollbackGen (some msg) pc pcs excVal ⟨rest ++ [tx.savepoint_name]⟩ tx).2 =
        Except.error (Raised.execError msg) := by
  unfold rollbackGen
  rw [popSavepoint_concat]
  simp only [eq_self_iff_true, if_true]
  split
  · left; rfl
  · right; rfl

/-! ## Entry characterizations -/

theorem enterGen_entered (status : TransactionStatus) (conn : Conn) (tx : Tx)
    (h : tx.entered = true) :
    enterGen status conn tx = ((conn, tx), Except.error Raised.typeError) := by
  unfold enterGen
  simp [h]

theorem enterGen_outer (tx : Tx) (hent : tx.entered = false) :
    enterGen TransactionStatus.idle ⟨[]⟩ tx =
      ((⟨[tx.savepoint_name]⟩,
        { tx with entered := true, outer_transaction := true }),
        Except.ok (String.intercalate "; "
          (enterCommands { tx with entered := true, outer_transaction := true }))) := by
  unfold enterGen pushSavepoint enterCommands
  simp [hent]

theorem enterGen_inner_named (status : TransactionStatus) (conn : Conn) (tx : Tx)
    (hstatus : status ≠ TransactionStatus.idle) (hent : tx.entered = false)
    (hname : tx.savepoint_name ≠ "") :
    enterGen status conn tx =
      ((⟨conn.savepoints ++ [tx.savepoint_name]⟩,
        { tx with entered := true, outer_transaction := false }),
        Except.ok ("SAVEPOINT " ++ quoteIdent tx.savepoint_name)) := by
  unfold enterGen pushSavepoint
  simp [hent, hstatus, hname]
  rfl

theorem enterGen_inner_anon (status : TransactionStatus) (conn : Conn) (tx : Tx)
    (hstatus : status ≠ TransactionStatus.idle) (hent : tx.entered = false)
    (hname : tx.savepoint_name = "") :
    enterGen status conn tx =
      ((⟨conn.savepoints ++ ["_pg3_" ++ natToDec (conn.savepoints.length + 1)]⟩,
        { tx with
          entered := true
          outer_transaction := false
          savepoint_name := "_pg3_" ++ natToDec (conn.savepoints.length + 1) }),
        Except.ok ("SAVEPOINT " ++
          quoteIdent ("_pg3_" ++ natToDec (conn.savepoints.length + 1)))) := by
  have hne : "_pg3_" ++ natToDec (conn.savepoints.length + 1) ≠ "" := by
    intro h
    have hd := congrArg String.data h
    rw [String.data_append] at hd
    exact absurd (List.append_eq_nil.mp hd).1 (by decide)
  unfold enterGen pushSavepoint
  simp [hent, hstatus, hname, hne]
  rfl

/-! ## Exit never consults the exited flag -/

theorem commitGen_ignores_exited (e : Option String) (conn : Conn) (tx : Tx) :
    (commitGen e conn { tx with exited := true }).1.1 =
      (commitGen e conn tx).1.1 ∧
    (commitGen e conn { tx with exited := true }).2 =
      (commitGen e conn tx).2 := by
  obtain ⟨i, nm, fr, en, ex, ou⟩ := tx
  unfold commitGen
  rcases h : popSavepoint conn nm with _ | ⟨conn2, ex2⟩
  · simp [h]
  · simp [h]

theorem rollbackGen_ignores_exited (e : Option String) (pc : Bool)
    (pcs : List String) (v : Option Sig) (conn : Conn) (tx : Tx) :
    (rollbackGen e pc pcs v conn { tx with exited := true }).1.1 =
      (rollbackGen e pc pcs v conn tx).1.1 ∧
    (rollbackGen e pc pcs v conn { tx with exited := true }).2 =
      (rollbackGen e pc pcs v conn tx).2 := by
  obtain ⟨i, nm, fr, en, ex, ou⟩ := tx
  unfold rollbackGen
  rcases h : popSavepoint conn nm with _ | ⟨conn2, ex2⟩
  · simp [h]
  · simp [h]

theorem exitGen_ignores_exited (e : Option String) (pc : Bool)
    (pcs : List String) (v : Option Sig) (conn : Conn) (tx : Tx) :
    (exitGen e pc pcs v conn { tx with exited := true }).1.1 =
      (exitGen e pc pcs v conn tx).1.1 ∧
    (exitGen e pc pcs v conn { tx with exited := true }).2 =
      (exitGen e pc pcs v conn tx).2 := by
  have hc := commitGen_ignores_exited e conn tx
  have hr := rollbackGen_ignores_exited e pc pcs v conn tx
  unfold exitGen
  rw [show ({ tx with exited := true } : Tx).force_rollback = tx.force_rollback
    from rfl]
  by_cases hpath : v = none ∧ tx.force_rollback = false
  · rw [if_pos hpath, if_pos hpath]
    rcases hL : commitGen e conn { tx with exited := true } with ⟨stL, rL⟩
    rcases hR : commitGen e conn tx with ⟨stR, rR⟩
    rw [hL, hR] at hc
    obtain ⟨hc1, hc2⟩ := hc
    dsimp only at hc1 hc2
    subst hc2
    cases rL <;> simp [hc1]
  · rw [if_neg hpath, if_neg hpath]
    rcases hL : rollbackGen e pc pcs v conn { tx with exited := true } with ⟨stL, rL⟩
    rcases hR : rollbackGen e pc pcs v conn tx with ⟨stR, rR⟩
    rw [hL, hR] at hr
    obtain ⟨hr1, hr2⟩ := hr
    dsimp only at hr1 hr2
    subst hr2
    cases rL with
    | error err => cases err <;> simp [hr1]
    | ok val => rcases val with ⟨b, hd⟩; simp [hr1]

/-! ## Well-nested runs keep the stack balanced -/

theorem exitGen_matched_ok (pc : Bool) (pcs : List String) (excVal : Option Sig)
    (rest : List String) (tx : Tx)
    (houter : tx.outer_transaction = true → rest = []) :
    ∃ res, exitGen none pc pcs excVal ⟨rest ++ [tx.savepoint_name]⟩ tx =
      ((⟨rest⟩, { tx with exited := true }), Except.ok res) := by
  rw [exitGen_matched pc pcs excVal rest tx houter]
  split
  · exact ⟨_, rfl⟩
  · exact ⟨_, rfl⟩

theorem enterGen_run (w : World) (hInv : Inv w) (name : Option String)
    (force : Bool) :
    ∃ (conn1 : Conn) (tx1 : Tx) (b : String),
      enterGen w.status w.conn (mkTransaction 0 name force) =
        ((conn1, tx1), Except.ok b) ∧
      conn1.savepoints = w.conn.savepoints ++ [tx1.savepoint_name] ∧
      tx1.outer_transaction = !w.inTransaction ∧
      tx1.force_rollback = force := by
  obtain ⟨⟨sps⟩, it⟩ := w
  cases it with
  | false =>
      have hsp : sps = [] := hInv.mp rfl
      subst hsp
      have h := enterGen_outer (mkTransaction 0 name force) rfl
      exact ⟨_, _, _, h, by simp, rfl, rfl⟩
  | true =>
      by_cases hn : (mkTransaction 0 name force).savepoint_name = ""
      · have h := enterGen_inner_anon TransactionStatus.intrans ⟨sps⟩
          (mkTransaction 0 name force) (by decide) rfl hn
        exact ⟨_, _, _, h, by simp, rfl, rfl⟩
      · have h := enterGen_inner_named TransactionStatus.intrans ⟨sps⟩
          (mkTransaction 0 name force) (by decide) rfl hn
        exact ⟨_, _, _, h, by simp, rfl, rfl⟩

theorem runF_balance (f : ScopeF) : ∀ w : World, Inv w →
    ∃ w2, runF f w = some w2 ∧
      w2.conn.savepoints = w.conn.savepoints ∧
      w2.inTransaction = w.inTransaction := by
  induction f with
  | leaf => exact fun w _ => ⟨w, rfl, rfl, rfl⟩
  | scope name force sig children rest ihc ihr =>
      intro w hInv
      obtain ⟨conn1, tx1, b, henter, hsp1, houter1, _⟩ :=
        enterGen_run w hInv name force
      have hor : (w.inTransaction || tx1.outer_transaction) = true := by
        rw [houter1]; cases w.inTransaction <;> rfl
      have hInv1 : Inv ⟨conn1, w.inTransaction || tx1.outer_transaction⟩ := by
        unfold Inv
        rw [hor]
        simp [hsp1]
      obtain ⟨w2, hrun2, hsp2, hit2⟩ := ihc _ hInv1
      have houter_rest : tx1.outer_transaction = true → w.conn.savepoints = [] := by
        intro h
        rw [h] at houter1
        have : w.inTransaction = false := by
          cases hw : w.inTransaction
          · rfl
          · rw [hw] at houter1; exact absurd houter1.symm (by decide)
        exact hInv.mp this
      obtain ⟨res, hexit⟩ :=
        exitGen_matched_ok false [] sig w.conn.savepoints tx1 houter_rest
      have hw2conn : w2.conn = ⟨w.conn.savepoints ++ [tx1.savepoint_name]⟩ := by
        have h2 : w2.conn.savepoints = w.conn.savepoints ++ [tx1.savepoint_name] := by
          rw [hsp2]
          dsimp only
          exact hsp1
        exact congrArg Conn.mk h2
      have hin3 : (w2.inTransaction && !tx1.outer_transaction) = w.inTransaction := by
        rw [hit2]
        dsimp only
        rw [hor, houter1]
        cases w.inTransaction <;> rfl
      have hInv3 : Inv ⟨⟨w.conn.savepoints⟩, w2.inTransaction && !tx1.outer_transaction⟩ := by
        unfold Inv
        rw [hin3]
        exact hInv
      obtain ⟨w4, hrun4, hsp4, hit4⟩ := ihr _ hInv3
      refine ⟨w4, ?_, ?_, ?_⟩
      · simp only [runF]
        rw [henter]
        dsimp only
        rw [hrun2]
        dsimp only
        rw [hw2conn, hexit]
        exact hrun4
      · rw [hsp4]
      · rw [hit4]
        exact hin3

/-! ## Synthesized anonymous names -/

theorem nestAnonNames_formula (N : Nat) : ∀ conn : Conn,
    nestAnonNames conn N =
      (List.range N).map
        (fun i => "_pg3_" ++ natToDec (conn.savepoints.length + i + 1)) := by
  induction N with
  | zero => exact fun conn => rfl
  | succ n ih =>
      intro conn
      have h := enterGen_inner_anon TransactionStatus.intrans conn
        (mkTransaction 0 none false) (by decide) rfl rfl
      simp only [nestAnonNames]
      rw [h]
      dsimp only
      rw [ih ⟨conn.savepoints ++ ["_pg3_" ++ natToDec (conn.savepoints.length + 1)]⟩]
      rw [List.range_succ_eq_map, List.map_cons, List.map_map]
      congr 1
      all_goals simp [Nat.add_assoc, Nat.add_comm, Nat.add_left_comm]

/-! ## The claims -/

/-- C1: on every exit of a scope — commit path or rollback path — the top
element of the connection's savepoint stack is removed unconditionally;
the exit raises the out-of-order-nesting error, naming both the popped
element and the scope's own savepoint name, exactly when the two differ;
and on a mismatch the stack mutation is not undone (the resulting stack
is the input stack without its top element in every case). -/
theorem c1_exit_pops_top_and_raises_iff_mismatch
    (execRes : Option String) (pc : Bool) (pcs : List String)
    (excVal : Option Sig) (rest : List String) (sp : String) (tx : Tx) :
    (exitGen execRes pc pcs excVal ⟨rest ++ [sp]⟩ tx).1.1 = ⟨rest⟩ ∧
    ((exitGen execRes pc pcs excVal ⟨rest ++ [sp]⟩ tx).2 =
        Except.error (Raised.outOfOrder sp tx.savepoint_name) ↔
      sp ≠ tx.savepoint_name) := by
  refine ⟨?_, exitGen_ooo_iff execRes pc pcs excVal rest sp tx⟩
  rw [exitGen_state]
  split
  · rw [commitGen_state]
  · rw [rollbackGen_state]

/-- C2: on the rollback path (a triggering signal `v` is present), an
out-of-order-nesting error raised by the rollback attempt propagates out
of the exit, replacing `v`; any other exception raised by the rollback
attempt — a failing execute after a matching pop, or the pop on an empty
stack — is suppressed (after being logged, which is outside this model)
and the exit returns the not-handled flag, so `v` keeps propagating
unmodified. -/
theorem c2_rollback_error_policy
    (execRes : Option String) (pc : Bool) (pcs : List String) (v : Sig)
    (rest : List String) (sp : String) (tx : Tx) (msg : String) :
    (sp ≠ tx.savepoint_name →
      (exitGen execRes pc pcs (some v) ⟨rest ++ [sp]⟩ tx).2 =
        Except.error (Raised.outOfOrder sp tx.savepoint_name)) ∧
    (exitGen (some msg) pc pcs (some v) ⟨rest ++ [sp]⟩
      { tx with savepoint_name := sp }).2 = Except.ok (none, false) ∧
    (exitGen execRes pc pcs (some v) ⟨[]⟩ tx).2 = Except.ok (none, false) := by
  refine ⟨?_, ?_, ?_⟩
  · intro hne
    exact (exitGen_ooo_iff execRes pc pcs (some v) rest sp tx).mpr hne
  · have hcase := rollbackGen_matched_execFail msg pc pcs (some v) rest
      { tx with savepoint_name := sp }
    dsimp only at hcase
    unfold exitGen
    rw [if_neg (by simp)]
    rcases hr : rollbackGen (some msg) pc pcs (some v) ⟨rest ++ [sp]⟩
      { tx with savepoint_name := sp } with ⟨st, r⟩
    rw [hr] at hcase
    rcases hcase with h | h <;> dsimp only at h <;> subst h <;> rfl
  · unfold exitGen
    rw [if_neg (by simp), rollbackGen_empty]

/-- C10: any exit attempt on a non-empty stack (so that the pop returns
rather than raising) marks the scope exited, on the commit path and on
the rollback path alike, even when the pop detected a name mismatch and
the out-of-order-nesting error is raised right after. -/
theorem c10_exit_marks_exited_before_raising
    (execRes : Option String) (pc : Bool) (pcs : List String)
    (excVal : Option Sig) (rest : List String) (sp : String) (tx : Tx) :
    (commitGen execRes ⟨rest ++ [sp]⟩ tx).1.2.exited = true ∧
    (rollbackGen execRes pc pcs excVal ⟨rest ++ [sp]⟩ tx).1.2.exited = true ∧
    (exitGen execRes pc pcs excVal ⟨rest ++ [sp]⟩ tx).1.2.exited = true := by
  refine ⟨?_, ?_, ?_⟩
  · rw [commitGen_state]
  · rw [rollbackGen_state]
  · rw [exitGen_state]
    split
    · rw [commitGen_state]
    · rw [rollbackGen_state]

/-- C3: any well-nested forest of scope entries and exits runs to
completion (in particular the outer-transaction empty-stack assertions
at entry and exit all hold and no out-of-order error is raised), and it
restores the savepoint stack to its pre-run value — so each scope exit
returns the stack to its pre-entry length, and a run that starts idle
with an empty stack ends with an empty stack. -/
theorem c3_wellnested_stack_balance (f : ScopeF) (w : World) (hInv : Inv w) :
    ∃ w2, runF f w = some w2 ∧
      w2.conn.savepoints = w.conn.savepoints ∧
      w2.inTransaction = w.inTransaction :=
  runF_balance f w hInv

/-- Witness for C3: a concrete well-nested run — an outer scope holding
an inner named scope whose block raises — completes with an empty stack. -/
theorem c3_wellnested_stack_balance_witness :
    ∃ w2 : World,
      runF (ScopeF.scope none false none
          (ScopeF.scope (some "x") false (some Sig.anyException)
            ScopeF.leaf ScopeF.leaf)
          ScopeF.leaf) ⟨⟨[]⟩, false⟩ = some w2 ∧
      w2.conn.savepoints = [] ∧
      w2.inTransaction = false :=
  c3_wellnested_stack_balance _ ⟨⟨[]⟩, false⟩ ⟨fun _ => rfl, fun _ => rfl⟩

/-- C4: an exit on the rollback path triggered by the explicit rollback
control signal swallows the signal — reports handled — exactly when the
signal's target scope is unset or is the exiting scope itself (compared
by identity); with any other target the signal keeps propagating.  A
commit-path exit always reports not handled. -/
theorem c4_rollback_swallow_iff
    (pc : Bool) (pcs : List String) (target : Option Nat)
    (rest : List String) (tx : Tx)
    (houter : tx.outer_transaction = true → rest = []) :
    (handledOf (exitGen none pc pcs (some (Sig.rollbackSig target))
        ⟨rest ++ [tx.savepoint_name]⟩ tx).2 = some true ↔
      (target = none ∨ target = some tx.id)) ∧
    (∀ (e : Option String) (conn : Conn) (tx2 : Tx) (x : Option String × Bool),
      tx2.force_rollback = false →
      (exitGen e pc pcs none conn tx2).2 = Except.ok x → x.2 = false) := by
  constructor
  · rw [exitGen_matched pc pcs _ rest tx houter]
    rw [if_neg (by simp)]
    unfold handledOf swallowDecision
    cases target with
    | none => simp
    | some t => simp [beq_iff_eq]
  · intro e conn tx2 x hforce hok
    unfold exitGen at hok
    rw [if_pos ⟨rfl, hforce⟩] at hok
    rcases h : commitGen e conn tx2 with ⟨st, r⟩
    rw [h] at hok
    cases r with
    | error err => exact absurd hok (by simp)
    | ok b =>
        dsimp only at hok
        have hx : (some b, false) = x := by
          injection hok
        rw [← hx]

/-- Witness for C4: with the rollback signal targeting the scope itself
the exit reports handled; the hypotheses are discharged at a concrete
inner scope. -/
theorem c4_rollback_swallow_iff_witness :
    (handledOf (exitGen none false [] (some (Sig.rollbackSig (some 7)))
        ⟨["a"] ++ [(Tx.mk 7 "x" false true false false).savepoint_name]⟩
        (Tx.mk 7 "x" false true false false)).2 = some true ↔
      ((some 7 : Option Nat) = none ∨ (some 7 : Option Nat) = some 7)) ∧
    (∀ (e : Option String) (conn : Conn) (tx2 : Tx) (x : Option String × Bool),
      tx2.force_rollback = false →
      (exitGen e false [] none conn tx2).2 = Except.ok x → x.2 = false) :=
  c4_rollback_swallow_iff false [] (some 7) ["a"]
    (Tx.mk 7 "x" false true false false) (by decide)

/-- Witness for C2: at a concrete inner scope named `x`, a mismatching
pop turns the triggering exception into the out-of-order error, while a
failing execute and a pop on an empty stack are both suppressed. -/
theorem c2_rollback_error_policy_witness :
    (exitGen none false [] (some Sig.anyException) ⟨["a"] ++ ["y"]⟩
        (Tx.mk 0 "x" false true false false)).2 =
      Except.error (Raised.outOfOrder "y" "x") ∧
    (exitGen (some "boom") false [] (some Sig.anyException) ⟨["a"] ++ ["y"]⟩
      { (Tx.mk 0 "x" false true false false) with savepoint_name := "y" }).2 =
      Except.ok (none, false) ∧
    (exitGen none false [] (some Sig.anyException) ⟨[]⟩
      (Tx.mk 0 "x" false true false false)).2 = Except.ok (none, false) := by
  have h := c2_rollback_error_policy none false [] Sig.anyException ["a"] "y"
    (Tx.mk 0 "x" false true false false) "boom"
  exact ⟨h.1 (by decide), h.2.1, h.2.2⟩

/-- C5: the commit path is taken exactly when the block finished with no
signal and the scope's force-rollback flag is off — then the commit
batch is emitted and the exit reports not handled; in every other case
(a signal, the flag, or both) the rollback path is taken and the
rollback batch is emitted, so a scope constructed with force-rollback
emits rollback commands even after a signal-free block. -/
theorem c5_commit_iff_clean_and_unforced
    (pc : Bool) (pcs : List String) (excVal : Option Sig)
    (rest : List String) (tx : Tx)
    (houter : tx.outer_transaction = true → rest = []) :
    ((excVal = none ∧ tx.force_rollback = false) →
      exitGen none pc pcs excVal ⟨rest ++ [tx.savepoint_name]⟩ tx =
        ((⟨rest⟩, { tx with exited := true }),
          Except.ok (some (String.intercalate "; " (commitCommands tx)),
            false))) ∧
    ((excVal ≠ none ∨ tx.force_rollback = true) →
      exitGen none pc pcs excVal ⟨rest ++ [tx.savepoint_name]⟩ tx =
        ((⟨rest⟩, { tx with exited := true }),
          Except.ok (some (String.intercalate "; " (rollbackCommands tx pc pcs)),
            swallowDecision excVal tx.id))) := by
  constructor
  · intro hcond
    rw [exitGen_matched pc pcs excVal rest tx houter, if_pos hcond]
  · intro hcond
    have hneg : ¬(excVal = none ∧ tx.force_rollback = false) := by
      rcases hcond with h | h
      · exact fun hc => h hc.1
      · intro hc
        rw [hc.2] at h
        exact absurd h (by decide)
    rw [exitGen_matched pc pcs excVal rest tx houter, if_neg hneg]

/-- Witness for C5: a concrete inner scope constructed with the
force-rollback flag, exiting after a signal-free block, emits the
rollback batch. -/
theorem c5_commit_iff_clean_and_unforced_witness :
    exitGen none false [] none ⟨["a"] ++ ["x"]⟩ (Tx.mk 0 "x" true true false false) =
      ((⟨["a"]⟩, Tx.mk 0 "x" true true true false),
        Except.ok (some "ROLLBACK TO \"x\"; RELEASE \"x\"", false)) := by
  have h := (c5_commit_iff_clean_and_unforced false [] none ["a"]
    (Tx.mk 0 "x" true true false false) (by decide)).2 (Or.inr rfl)
  exact h.trans rfl

/-- C6 counterexample: committing an inner scope named `x` emits the
text `RELEASE "x"`, not the `RELEASE SAVEPOINT "x"` the claim states. -/
theorem c6_command_texts_counterexample :
    (commitGen none ⟨["x"]⟩ (Tx.mk 0 "x" false true false false)).2 =
      Except.ok "RELEASE \"x\"" ∧
    ("RELEASE \"x\"" : String) ≠ "RELEASE SAVEPOINT \"x\"" :=
  ⟨rfl, by decide⟩

/-- C6 amended: entry emits BEGIN for an outer scope and
`SAVEPOINT <quoted-id>` when a name is set; commit of an inner named
scope emits `RELEASE <quoted-id>` (without the SAVEPOINT keyword);
rollback of an inner named scope emits
`ROLLBACK TO <quoted-id>; RELEASE <quoted-id>`; outer commit emits
COMMIT and outer rollback emits ROLLBACK, with no RELEASE for an outer
scope that carries a name; commands in a batch are joined by the
two-character separator. -/
theorem c6_amended_command_texts :
    (∀ tx : Tx, tx.entered = false → tx.savepoint_name = "" →
      (enterGen TransactionStatus.idle ⟨[]⟩ tx).2 =
        Except.ok txStartCommand) ∧
    (∀ tx : Tx, tx.entered = false → tx.savepoint_name ≠ "" →
      (enterGen TransactionStatus.idle ⟨[]⟩ tx).2 =
        Except.ok (txStartCommand ++ "; " ++
          ("SAVEPOINT " ++ quoteIdent tx.savepoint_name))) ∧
    (∀ (status : TransactionStatus) (conn : Conn) (tx : Tx),
      status ≠ TransactionStatus.idle → tx.entered = false →
      tx.savepoint_name ≠ "" →
      (enterGen status conn tx).2 =
        Except.ok ("SAVEPOINT " ++ quoteIdent tx.savepoint_name)) ∧
    (∀ (rest : List String) (tx : Tx),
      tx.outer_transaction = false → tx.savepoint_name ≠ "" →
      (commitGen none ⟨rest ++ [tx.savepoint_name]⟩ tx).2 =
        Except.ok ("RELEASE " ++ quoteIdent tx.savepoint_name)) ∧
    (∀ tx : Tx, tx.outer_transaction = true →
      (commitGen none ⟨[] ++ [tx.savepoint_name]⟩ tx).2 =
        Except.ok "COMMIT") ∧
    (∀ (rest pcs : List String) (excVal : Option Sig) (tx : Tx),
      tx.outer_transaction = false → tx.savepoint_name ≠ "" →
      (rollbackGen none false pcs excVal ⟨rest ++ [tx.savepoint_name]⟩ tx).2 =
        Except.ok ("ROLLBACK TO " ++ quoteIdent tx.savepoint_name ++
          "; RELEASE " ++ quoteIdent tx.savepoint_name,
          swallowDecision excVal tx.id)) ∧
    (∀ (pcs : List String) (excVal : Option Sig) (tx : Tx),
      tx.outer_transaction = true →
      (rollbackGen none false pcs excVal ⟨[] ++ [tx.savepoint_name]⟩ tx).2 =
        Except.ok ("ROLLBACK", swallowDecision excVal tx.id)) := by
  refine ⟨?_, ?_, ?_, ?_, ?_, ?_, ?_⟩
  · intro tx h1 h2
    rw [enterGen_outer tx h1]
    simp [enterCommands, h2]
    rfl
  · intro tx h1 h2
    rw [enterGen_outer tx h1]
    simp only [enterCommands]
    simp [h2]
    rfl
  · intro status conn tx hs h1 h2
    rw [enterGen_inner_named status conn tx hs h1 h2]
  · intro rest tx hout hname
    rw [commitGen_matched rest tx (fun h => absurd (hout.symm.trans h) (by decide))]
    simp [commitCommands, hname, hout]
    rfl
  · intro tx hout
    rw [commitGen_matched [] tx (fun _ => rfl)]
    simp [commitCommands, hout]
    rfl
  · intro rest pcs excVal tx hout hname
    rw [rollbackGen_matched false pcs excVal rest tx
      (fun h => absurd (hout.symm.trans h) (by decide))]
    simp [rollbackCommands, hname, hout]
    rfl
  · intro pcs excVal tx hout
    rw [rollbackGen_matched false pcs excVal [] tx (fun _ => rfl)]
    simp [rollbackCommands, hout]
    rfl

/-- Witness for C6 amended, at concrete scopes: an unnamed outer entry,
a named outer entry, an inner commit and an outer rollback. -/
theorem c6_amended_command_texts_witness :
    (enterGen TransactionStatus.idle ⟨[]⟩ (Tx.mk 0 "" false false false false)).2 =
      Except.ok txStartCommand ∧
    (enterGen TransactionStatus.idle ⟨[]⟩ (Tx.mk 0 "x" false false false false)).2 =
      Except.ok (txStartCommand ++ "; " ++
        ("SAVEPOINT " ++ quoteIdent (Tx.mk 0 "x" false false false false).savepoint_name)) ∧
    (commitGen none ⟨["a"] ++ [(Tx.mk 0 "x" false true false false).savepoint_name]⟩
        (Tx.mk 0 "x" false true false false)).2 =
      Except.ok ("RELEASE " ++ quoteIdent (Tx.mk 0 "x" false true false false).savepoint_name) ∧
    (rollbackGen none false [] none
        ⟨[] ++ [(Tx.mk 0 "" false true false true).savepoint_name]⟩
        (Tx.mk 0 "" false true false true)).2 =
      Except.ok ("ROLLBACK", swallowDecision none 0) := by
  have h := c6_amended_command_texts
  exact ⟨h.1 _ rfl rfl, h.2.1 _ rfl (by decide),
    h.2.2.2.1 ["a"] _ rfl (by decide), h.2.2.2.2.2.2 [] none _ rfl⟩

/-- C7: entering `N` consecutively nested anonymous inner scopes
synthesizes each name deterministically from the savepoint-stack depth
at its entry — the i-th scope gets the name built from depth+1 — so the
name list is exactly the depth-indexed map over `0..N-1`
(depth-ordered), and the names are pairwise distinct. -/
theorem c7_anon_names_distinct_depth_ordered (conn : Conn) (N : Nat) :
    nestAnonNames conn N =
      (List.range N).map
        (fun i => "_pg3_" ++ natToDec (conn.savepoints.length + i + 1)) ∧
    (nestAnonNames conn N).Pairwise (fun a b => a ≠ b) := by
  refine ⟨nestAnonNames_formula N conn, ?_⟩
  rw [nestAnonNames_formula N conn, List.pairwise_map]
  refine (List.pairwise_lt_range N).imp ?_
  intro a b hab heq
  have := natToDec_injective (string_append_left_cancel heq)
  omega

/-- C8 counterexample: exiting a scope that is already marked exited is
not rejected — the exit runs in full, pops the stack again and emits the
commit batch. -/
theorem c8_second_exit_counterexample :
    exitGen none false [] none ⟨["x"]⟩ (Tx.mk 0 "x" false true true false) =
      ((⟨[]⟩, Tx.mk 0 "x" false true true false),
        Except.ok (some "RELEASE \"x\"", false)) := rfl

/-- C8 amended: entry is one-shot — entering an already-entered scope
fails immediately with the usage error, leaving the connection state and
the scope untouched — but exit carries no such guard: the exited flag is
never consulted, so a second exit acts on the stack and produces the
same outcome as a first one instead of being rejected. -/
theorem c8_enter_once_exit_unguarded :
    (∀ (status : TransactionStatus) (conn : Conn) (tx : Tx),
      tx.entered = true →
      enterGen status conn tx = ((conn, tx), Except.error Raised.typeError)) ∧
    (∀ (e : Option String) (pc : Bool) (pcs : List String) (v : Option Sig)
      (conn : Conn) (tx : Tx),
      (exitGen e pc pcs v conn { tx with exited := true }).1.1 =
        (exitGen e pc pcs v conn tx).1.1 ∧
      (exitGen e pc pcs v conn { tx with exited := true }).2 =
        (exitGen e pc pcs v conn tx).2) :=
  ⟨enterGen_entered, exitGen_ignores_exited⟩

/-- Witness for C8, at a concrete scope: re-entry is rejected with the
stack untouched, and an exit on an exited copy of a scope mutates the
stack exactly as on the original. -/
theorem c8_enter_once_exit_unguarded_witness :
    enterGen TransactionStatus.idle ⟨[]⟩ (Tx.mk 0 "x" false true false false) =
      ((⟨[]⟩, Tx.mk 0 "x" false true false false),
        Except.error Raised.typeError) ∧
    (exitGen none false [] none ⟨["x"]⟩
        { (Tx.mk 0 "x" false true false false) with exited := true }).1.1 =
      (exitGen none false [] none ⟨["x"]⟩
        (Tx.mk 0 "x" false true false false)).1.1 := by
  have h := c8_enter_once_exit_unguarded
  exact ⟨h.1 _ _ _ rfl, (h.2 none false [] none ⟨["x"]⟩ _).1⟩

/-- C9 counterexample: the legacy psycopg3 constructor synthesizes the
savepoint name and fixes the outer-transaction flag already at
construction time — constructed inside a transaction over a stack of
depth one and given no explicit name, the scope is born carrying the
synthesized name `s2`. -/
theorem c9_construction_counterexample :
    mkTransaction3 TransactionStatus.intrans ["s1"] none false =
      some (Tx3.mk "s2" false true false) ∧ ("s2" : String) ≠ "" :=
  ⟨rfl, by decide⟩

/-- C9 amended: in the psycopg implementation, construction only stores
its arguments — the savepoint stack is not touched, no name is
synthesized and the outer flag starts false; the synthesized name and
the outer flag are assigned at entry time by the push, from the
transaction status and the stack depth at that moment.  In the legacy
psycopg3 implementation, by contrast, the outer flag and (for an inner
scope) the synthesized name are determined already at construction
time; that constructor does not modify the stack either. -/
theorem c9_construction_vs_entry :
    (∀ (i : Nat) (nm : Option String) (fr : Bool),
      mkTransaction i nm fr = Tx.mk i (nm.getD "") fr false false false) ∧
    (∀ (status : TransactionStatus) (conn : Conn) (tx : Tx),
      status ≠ TransactionStatus.idle → tx.savepoint_name = "" →
      pushSavepoint status conn tx =
        some (⟨conn.savepoints ++
            ["_pg3_" ++ natToDec (conn.savepoints.length + 1)]⟩,
          { tx with
            savepoint_name := "_pg3_" ++ natToDec (conn.savepoints.length + 1)
            outer_transaction := false })) ∧
    (∀ (status : TransactionStatus) (savepoints : List String) (fr : Bool),
      status ≠ TransactionStatus.idle →
      mkTransaction3 status savepoints none fr =
        some (Tx3.mk ("s" ++ natToDec (savepoints.length + 1)) fr true false)) := by
  refine ⟨fun i nm fr => rfl, ?_, ?_⟩
  · intro status conn tx hstatus hname
    unfold pushSavepoint
    simp [hstatus, hname]
  · intro status savepoints fr hstatus
    unfold mkTransaction3
    simp [hstatus]

/-- Witness for C9, at concrete inputs: an inner push synthesizes the
depth-based name at entry, and the legacy constructor synthesizes its
name at construction. -/
theorem c9_construction_vs_entry_witness :
    mkTransaction 3 none true = Tx.mk 3 "" true false false false ∧
    pushSavepoint TransactionStatus.intrans ⟨["a"]⟩
        (Tx.mk 3 "" false true false false) =
      some (⟨["a", "_pg3_2"]⟩, Tx.mk 3 "_pg3_2" false true false false) ∧
    mkTransaction3 TransactionStatus.inerror ["a", "b"] none false =
      some (Tx3.mk "s3" false true false) := by
  have h := c9_construction_vs_entry
  refine ⟨h.1 3 none true, ?_, ?_⟩
  · exact (h.2.1 TransactionStatus.intrans ⟨["a"]⟩
      (Tx.mk 3 "" false true false false) (by decide) rfl).trans rfl
  · exact (h.2.2 TransactionStatus.inerror ["a", "b"] false (by decide)).trans rfl

end PsycopgTx
